import Mathlib

/-!
# Verification of `function_app.py` (stockfish_function)

Shallow embedding of the Azure-Functions Stockfish adapter in
`src/function_app.py`, together with proofs about the claims of the
specification.

The repository's own code is the two functions `get_stockfish_analysis`
(lines 17-142), `get_move_flags` (lines 144-169) and the HTTP handler
`main` (lines 172-239).  They call into two external collaborators that
are modelled here from their documented behaviour:

* the `python-chess` library (`chess.Board`, `chess.Move`,
  `chess.square_name`, `Board.san`, `Board.is_capture`,
  `Board.is_en_passant`, `Board.is_castling`, and the engine-score
  classes `Score` / `PovScore` of `chess.engine`), and
* the Python language itself (exceptions raised by ill-typed
  primitive operations, attribute lookups, list indexing).

The filesystem, the engine subprocess and the wall clock are modelled as
explicit parameters (`Env`, `EngineInfo`, an elapsed-time integer): the
engine's reply is an arbitrary `EngineInfo` value, which is exactly the
"stubbed engine" of the specification's testable properties.
-/

set_option maxRecDepth 4000

namespace ChessModel

/-- Side to move / piece colour (`chess.WHITE` / `chess.BLACK`). -/
inductive Color
  | white
  | black
deriving DecidableEq, Repr

/-- `not color` in python-chess (colours are booleans there). -/
def Color.other : Color → Color
  | .white => .black
  | .black => .white

/-- Piece kinds, `chess.PAWN` ... `chess.KING`. -/
inductive PieceType
  | pawn
  | knight
  | bishop
  | rook
  | queen
  | king
deriving DecidableEq, Repr

/-- A coloured piece (`chess.Piece`). -/
structure Piece where
  pt : PieceType
  color : Color
deriving DecidableEq, Repr

/-- Squares are `0..63`, `a1 = 0`, `h8 = 63`, exactly python-chess's
numbering: `square = 8 * rank + file`. -/
def squareFile (s : Nat) : Nat := s % 8

def squareRank (s : Nat) : Nat := s / 8

def fileI (s : Nat) : Int := (squareFile s : Nat)

def rankI (s : Nat) : Int := (squareRank s : Nat)

def fileChar (f : Nat) : Char := Char.ofNat (97 + f)

def rankDigitChar (r : Nat) : Char := Char.ofNat (49 + r)

/-- `chess.square_name`: file letter followed by rank digit. -/
def squareName (s : Nat) : String :=
  String.mk [fileChar (squareFile s), rankDigitChar (squareRank s)]

/-- `chess.Move`: origin square, target square, optional promotion piece.
(The `drop` field used only by crazyhouse is not modelled.) -/
structure Move where
  fromSq : Nat
  toSq : Nat
  promotion : Option PieceType := none
deriving DecidableEq, Repr

/-- Lower-case piece letter as used by `chess.piece_symbol`. -/
def pieceTypeChar : PieceType → Char
  | .pawn => 'p'
  | .knight => 'n'
  | .bishop => 'b'
  | .rook => 'r'
  | .queen => 'q'
  | .king => 'k'

/-- Upper-case piece letter (`chess.piece_symbol(pt).upper()`). -/
def pieceTypeCharUpper : PieceType → Char
  | .pawn => 'P'
  | .knight => 'N'
  | .bishop => 'B'
  | .rook => 'R'
  | .queen => 'Q'
  | .king => 'K'

/-- `Move.uci()`: origin name, target name, promotion letter if any. -/
def Move.uci (m : Move) : String :=
  squareName m.fromSq ++ squareName m.toSq ++
    (match m.promotion with
     | none => ""
     | some pt => String.mk [pieceTypeChar pt])

/-- The chess position as used by the adapter: piece placement, side
to move, the en-passant target square, and the castling availability
(as in python-chess, the set of squares of rooks with which castling
is still possible; `castling_rights` there is a bitboard, here a
list).  The move counters of a FEN are validated by the parser below
but not stored: nothing modelled in this file reads them. -/
structure Board where
  pieceAt : Nat → Option Piece
  turn : Color
  epSquare : Option Nat
  castlingRights : List Nat

def colorAt (b : Board) (s : Nat) : Option Color :=
  (b.pieceAt s).map Piece.color

def occupied (b : Board) (s : Nat) : Bool :=
  (b.pieceAt s).isSome

/-- Is there a pawn (of either colour, like python-chess's `pawns`
bitboard test) on square `s`? -/
def pawnAt (b : Board) (s : Nat) : Bool :=
  match b.pieceAt s with
  | some p => p.pt == .pawn
  | none => false

/-- Is there a king (of either colour, like python-chess's `kings`
bitboard test) on square `s`? -/
def kingAt (b : Board) (s : Nat) : Bool :=
  match b.pieceAt s with
  | some p => p.pt == .king
  | none => false

/-- `Board.is_en_passant(move)`: the en-passant square is the target,
a pawn stands on the origin, the origin/target distance is 7 or 9, and
the target square is empty. -/
def isEnPassant (b : Board) (m : Move) : Bool :=
  (b.epSquare == some m.toSq) &&
  pawnAt b m.fromSq &&
  (((m.toSq : Int) - (m.fromSq : Int)).natAbs == 7 ||
   ((m.toSq : Int) - (m.fromSq : Int)).natAbs == 9) &&
  !(occupied b m.toSq)

/-- `Board.is_capture(move)`: a piece of the side not to move stands on
a square touched by the move (python-chess forms the two-square set
`BB_SQUARES[from] ^ BB_SQUARES[to]`, which is empty when the squares
coincide), or the move is an en-passant capture. -/
def isCapture (b : Board) (m : Move) : Bool :=
  (m.fromSq != m.toSq &&
    ((colorAt b m.fromSq == some b.turn.other) ||
     (colorAt b m.toSq == some b.turn.other))) ||
  isEnPassant b m

/-- `Board.is_castling(move)`: a king stands on the origin square and
either the king travels more than one file or the target square holds a
rook of the side to move (the Chess960 encoding). -/
def isCastling (b : Board) (m : Move) : Bool :=
  kingAt b m.fromSq &&
  ((fileI m.fromSq - fileI m.toSq).natAbs > 1 ||
   (match b.pieceAt m.toSq with
    | some q => q.pt == .rook && q.color == b.turn
    | none => false))

/-- `Board.is_kingside_castling(move)`. -/
def isKingsideCastling (b : Board) (m : Move) : Bool :=
  isCastling b m && fileI m.toSq > fileI m.fromSq

/-- `Board.is_queenside_castling(move)`. -/
def isQueensideCastling (b : Board) (m : Move) : Bool :=
  isCastling b m && fileI m.toSq < fileI m.fromSq

/-- Squares strictly between two squares of a common rank, file or
diagonal; `[]` when the squares are not aligned. -/
def betweenSquares (a c : Nat) : List Nat :=
  let df := fileI c - fileI a
  let dr := rankI c - rankI a
  let n := max df.natAbs dr.natAbs
  if n ≤ 1 then []
  else if df = 0 ∨ dr = 0 ∨ df.natAbs = dr.natAbs then
    (List.range (n - 1)).map (fun k =>
      ((rankI a + (k + 1 : Nat) * dr.sign) * 8 +
       (fileI a + (k + 1 : Nat) * df.sign)).toNat)
  else []

/-- Does the piece standing on `s` attack square `t`?  Mirrors
python-chess's attack tables: pawn/knight/king by offset pattern,
sliding pieces along clear lines. -/
def attacksSq (b : Board) (s t : Nat) : Bool :=
  match b.pieceAt s with
  | none => false
  | some p =>
    if s == t then false else
    let df := fileI t - fileI s
    let dr := rankI t - rankI s
    let lineClear := (betweenSquares s t).all (fun q => !(occupied b q))
    match p.pt with
    | .pawn =>
      df.natAbs == 1 &&
        dr == (match p.color with | .white => (1 : Int) | .black => -1)
    | .knight =>
      (df.natAbs == 1 && dr.natAbs == 2) || (df.natAbs == 2 && dr.natAbs == 1)
    | .king => df.natAbs ≤ 1 && dr.natAbs ≤ 1
    | .bishop => df.natAbs == dr.natAbs && lineClear
    | .rook => (df == 0 || dr == 0) && lineClear
    | .queen => (df == 0 || dr == 0 || df.natAbs == dr.natAbs) && lineClear

/-- `Board.is_attacked_by(color, square)`. -/
def isAttackedBy (b : Board) (c : Color) (t : Nat) : Bool :=
  (List.range 64).any (fun s => (colorAt b s == some c) && attacksSq b s t)

/-- `Board.king(color)`: square of that colour's king, if any. -/
def kingSquare (b : Board) (c : Color) : Option Nat :=
  (List.range 64).find? (fun s => b.pieceAt s == some ⟨.king, c⟩)

/-- `Board.is_check()`: the side to move's king is attacked (no king,
no check, as in python-chess's `checkers_mask`). -/
def isCheck (b : Board) : Bool :=
  match kingSquare b b.turn with
  | none => false
  | some k => isAttackedBy b b.turn.other k

/-- `Board.push(move)`: play the move.  The origin square is emptied;
on an en-passant capture the passed pawn disappears; on castling the
rook jumps to its standard-chess square; a promotion replaces the pawn;
the en-passant target is set after a double pawn push and cleared
otherwise; castling rights on the touched squares disappear
(python-chess's `castling_rights &= ~touched`), and a king move clears
its colour's whole back rank of rights; the side to move flips. -/
def Board.push (b : Board) (m : Move) : Board :=
  let mover := b.pieceAt m.fromSq
  let ep := isEnPassant b m
  let castK := isKingsideCastling b m
  let castQ := isQueensideCastling b m
  let epCapturedSq : Option Nat :=
    if ep then
      some (match b.turn with
            | .white => m.toSq - 8
            | .black => m.toSq + 8)
    else none
  let placed : Option Piece :=
    match mover, m.promotion with
    | some p, some pr => some ⟨pr, p.color⟩
    | some p, none => some p
    | none, _ => none
  let homeRank := squareRank m.fromSq
  let rookFromSq : Option Nat :=
    if castK then some (homeRank * 8 + 7)
    else if castQ then some (homeRank * 8)
    else none
  let rookToSq : Option Nat :=
    if castK then some (homeRank * 8 + 5)
    else if castQ then some (homeRank * 8 + 3)
    else none
  let dbl :=
    pawnAt b m.fromSq && ((rankI m.toSq - rankI m.fromSq).natAbs == 2)
  let kingMove := kingAt b m.fromSq
  { pieceAt := fun s =>
      if s = m.fromSq then none
      else if rookFromSq = some s then none
      else if s = m.toSq then placed
      else if rookToSq = some s then
        (match rookFromSq with
         | some rf => b.pieceAt rf
         | none => none)
      else if epCapturedSq = some s then none
      else b.pieceAt s
    turn := b.turn.other
    epSquare := if dbl then some ((m.fromSq + m.toSq) / 2) else none
    castlingRights := b.castlingRights.filter (fun r =>
      !(r == m.fromSq) && !(r == m.toSq) &&
      !(kingMove &&
        (match b.turn with
         | .white => decide (r ≤ 7)
         | .black => decide (56 ≤ r)))) }

/-- Promotion rank index for a colour (rank 8 for White, rank 1 for
Black). -/
def promotionRank : Color → Nat
  | .white => 7
  | .black => 0

/-- Pawn moves to the last rank come in the four promotion variants,
as generated by python-chess; other pawn moves carry no promotion. -/
def withPromotions (c : Color) (s t : Nat) : List Move :=
  if squareRank t = promotionRank c then
    [⟨s, t, some .queen⟩, ⟨s, t, some .rook⟩,
     ⟨s, t, some .bishop⟩, ⟨s, t, some .knight⟩]
  else [⟨s, t, none⟩]

/-- Pseudo-legal moves of the piece on square `s` (python-chess
`generate_pseudo_legal_moves` restricted to one origin square);
castling moves are origin-independent and generated separately by
`castlingMoves`, as in python-chess. -/
def pseudoLegalMovesFrom (b : Board) (s : Nat) : List Move :=
  match b.pieceAt s with
  | none => []
  | some p =>
    if p.color != b.turn then [] else
    match p.pt with
    | .pawn =>
      let dir : Int := match p.color with | .white => 8 | .black => -8
      let startRank : Nat := match p.color with | .white => 1 | .black => 6
      let forward : List Move :=
        let t1 := (s : Int) + dir
        if 0 ≤ t1 ∧ t1 ≤ 63 then
          if !(occupied b t1.toNat) then
            withPromotions p.color s t1.toNat ++
            (if squareRank s = startRank then
               let t2 := (s : Int) + 2 * dir
               if 0 ≤ t2 ∧ t2 ≤ 63 then
                 if !(occupied b t2.toNat) then [⟨s, t2.toNat, none⟩] else []
               else []
             else [])
          else []
        else []
      let captures : List Move :=
        ((List.range 64).filter (fun t => attacksSq b s t)).flatMap
          (fun t =>
            if colorAt b t == some b.turn.other then
              withPromotions p.color s t
            else if b.epSquare == some t then [⟨s, t, none⟩]
            else [])
      forward ++ captures
    | _ =>
      (List.range 64).filterMap (fun t =>
        if attacksSq b s t && !(colorAt b t == some b.turn) then
          some ⟨s, t, none⟩
        else none)

/-- One side of `Board.generate_castling_moves` for standard chess:
the rights must name the rook square, the rook must stand there, the
squares between king and rook must be empty, and neither the king's
square nor any square it crosses or lands on may be attacked (so
castling out of, through, or into check is never generated).  The
emitted move is the king's two-file jump, python-chess's standard
(non-Chess960) encoding. -/
def castleSideMove (b : Board) (rookSq kingTo : Nat)
    (emptySqs safeSqs : List Nat) (kingSq : Nat) : List Move :=
  if b.castlingRights.contains rookSq ∧
     b.pieceAt rookSq = some ⟨.rook, b.turn⟩ ∧
     emptySqs.all (fun s => !occupied b s) = true ∧
     safeSqs.all (fun s => !isAttackedBy b b.turn.other s) = true then
    [⟨kingSq, kingTo, none⟩]
  else []

/-- `Board.generate_castling_moves` for standard chess: with the own
king on its home square, the kingside jump (empty f/g files, safe
e/f/g squares) and the queenside jump (empty b/c/d files, safe e/d/c
squares — b1/b8 may be attacked, as in python-chess).  python-chess
checks the attacked squares against an occupancy with the castling
king and rook lifted off the board; for the standard squares this
coincides with checking the current board, since any slider ray to a
crossed square through the king's own square attacks the king square
itself first. -/
def castlingMoves (b : Board) : List Move :=
  let base : Nat := match b.turn with | .white => 0 | .black => 56
  let kingSq := base + 4
  if b.pieceAt kingSq = some ⟨.king, b.turn⟩ then
    castleSideMove b (base + 7) (base + 6) [base + 5, base + 6]
      [kingSq, base + 5, base + 6] kingSq ++
    castleSideMove b base (base + 2) [base + 1, base + 2, base + 3]
      [kingSq, base + 3, base + 2] kingSq
  else []

/-- `Board.generate_pseudo_legal_moves`: the per-square piece, pawn
and en-passant moves plus (as in python-chess) the castling moves,
which that generator emits fully validated. -/
def pseudoLegalMoves (b : Board) : List Move :=
  (List.range 64).flatMap (pseudoLegalMovesFrom b) ++ castlingMoves b

/-- King safety after playing `m`: the mover's king is not attacked in
the resulting position (python-chess filters pseudo-legal moves through
`_is_safe`, which is equivalent to pushing and testing check). -/
def leavesKingSafe (b : Board) (m : Move) : Bool :=
  let b2 := b.push m
  match kingSquare b2 b.turn with
  | none => true
  | some k => !(isAttackedBy b2 b.turn.other k)

/-- `Board.generate_legal_moves()`: the pseudo-legal moves (castling
included) that leave the mover's king safe.  python-chess's `_is_safe`
accepts a castling move outright because `generate_castling_moves`
already validated it; re-checking the pushed position here is
equivalent, since a generated castle leaves the king on a square that
was verified unattacked. -/
def legalMoves (b : Board) : List Move :=
  (pseudoLegalMoves b).filter (leavesKingSafe b)

def isLegalMove (b : Board) (m : Move) : Bool :=
  (pseudoLegalMoves b).contains m && leavesKingSafe b m

def hasLegalMove (b : Board) : Bool :=
  !(legalMoves b).isEmpty

/-- `Board.san(move)` without the check/checkmate suffix (python-chess
`_algebraic_without_suffix`, minus the null-move and crazyhouse-drop
branches, which the adapter can never reach).  On an empty origin
square python-chess fails an assertion; the embedding returns `""`
there (the case is unreachable from any claim: the move comes from the
engine's principal variation for the very board being analysed). -/
def sanWithoutSuffix (b : Board) (m : Move) : String :=
  if isCastling b m then
    if fileI m.toSq < fileI m.fromSq then "O-O-O" else "O-O"
  else
    match b.pieceAt m.fromSq with
    | none => ""
    | some p =>
      let cap := isCapture b m
      let base : String :=
        if p.pt = .pawn then ""
        else
          let otherSqs :=
            ((legalMoves b).filter (fun c =>
                c.toSq = m.toSq && c.fromSq ≠ m.fromSq &&
                b.pieceAt c.fromSq == some ⟨p.pt, b.turn⟩)).map
              (fun c => c.fromSq)
          let disamb : String :=
            if otherSqs.isEmpty then ""
            else
              let sameRank :=
                otherSqs.any (fun o => squareRank o == squareRank m.fromSq)
              let sameFile :=
                otherSqs.any (fun o => squareFile o == squareFile m.fromSq)
              let column := sameRank || !sameFile
              let row := sameFile
              (if column then String.mk [fileChar (squareFile m.fromSq)]
               else "") ++
              (if row then String.mk [rankDigitChar (squareRank m.fromSq)]
               else "")
          String.mk [pieceTypeCharUpper p.pt] ++ disamb
      let capPart : String :=
        if cap then
          (if p.pt = .pawn then String.mk [fileChar (squareFile m.fromSq)]
           else "") ++ "x"
        else ""
      base ++ capPart ++ squareName m.toSq ++
        (match m.promotion with
         | some pr => "=" ++ String.mk [pieceTypeCharUpper pr]
         | none => "")

/-- `Board.san(move)`: algebraic notation plus `#` when the move mates,
`+` when it merely checks. -/
def boardSan (b : Board) (m : Move) : String :=
  let core := sanWithoutSuffix b m
  let b2 := b.push m
  core ++
    (if isCheck b2 then (if hasLegalMove b2 then "+" else "#") else "")

/-- Rank distance travelled by a move, `abs(to // 8 - from // 8)`. -/
def rankDist (m : Move) : Nat :=
  (rankI m.toSq - rankI m.fromSq).natAbs

/-- Python's `s.replace(pat, "")` for a one-character pattern, the only
form the source uses (`flags.replace("n", "")` on line 167): every
occurrence of the character is removed. -/
def removeChar (c : Char) (s : String) : String :=
  String.mk (s.data.filter (fun d => d ≠ c))

/-- Does `p` lead the list `l`? -/
def startsWithChars : List Char → List Char → Bool
  | [], _ => true
  | _ :: _, [] => false
  | p :: ps, c :: cs => p == c && startsWithChars ps cs

/-- Split a character list at every occurrence of the (nonempty)
separator.  The fuel argument (the list's length suffices) makes the
recursion structural. -/
def splitOnChars (sep : List Char) :
    Nat → List Char → List Char → List (List Char)
  | 0, l, acc => [acc.reverse ++ l]
  | _ + 1, [], acc => [acc.reverse]
  | fuel + 1, c :: rest, acc =>
    if startsWithChars sep (c :: rest) then
      acc.reverse ::
        splitOnChars sep fuel ((c :: rest).drop sep.length) []
    else splitOnChars sep fuel rest (c :: acc)

/-- Python's `s.split(sep)` (all occurrences). -/
def strSplit (s sep : String) : List String :=
  if sep.data = [] then [s]
  else (splitOnChars sep.data (s.data.length + 1) s.data []).map String.mk

/-- Join with a separator (the inverse used to model `maxsplit=1`). -/
def intercalateChars (sep : String) : List String → String
  | [] => ""
  | [x] => x
  | x :: rest => x ++ sep ++ intercalateChars sep rest

/-- Embedding of `get_move_flags` (`function_app.py` lines 144-169):
flag string built as promotion / kingside / queenside, then the capture
letter (en passant vs ordinary), `"n"` when nothing applies, and the
whole string replaced by a `"b"`-prefixed variant (with `"n"` deleted)
when a pawn travels two ranks. -/
def get_move_flags (b : Board) (m : Move) : String :=
  let flags1 : String :=
    if m.promotion.isSome then "p"
    else if isKingsideCastling b m then "k"
    else if isQueensideCastling b m then "q"
    else ""
  let flags2 : String :=
    if isCapture b m then flags1 ++ (if isEnPassant b m then "e" else "c")
    else flags1
  let flags3 : String :=
    if flags2 = "" ∧ isCapture b m = false ∧ m.promotion = none then "n"
    else flags2
  if pawnAt b m.fromSq = true ∧ rankDist m = 2 then
    "b" ++ removeChar 'n' flags3
  else flags3

/-! ### FEN parsing (`chess.Board(fen)`, python-chess `set_fen`) -/

def pieceOfChar : Char → Option Piece
  | 'P' => some ⟨.pawn, .white⟩
  | 'N' => some ⟨.knight, .white⟩
  | 'B' => some ⟨.bishop, .white⟩
  | 'R' => some ⟨.rook, .white⟩
  | 'Q' => some ⟨.queen, .white⟩
  | 'K' => some ⟨.king, .white⟩
  | 'p' => some ⟨.pawn, .black⟩
  | 'n' => some ⟨.knight, .black⟩
  | 'b' => some ⟨.bishop, .black⟩
  | 'r' => some ⟨.rook, .black⟩
  | 'q' => some ⟨.queen, .black⟩
  | 'k' => some ⟨.king, .black⟩
  | _ => none

/-- Parse one rank row of the board field of a FEN.  Returns the pieces
with their file index, or `none` on a malformed row: python-chess
rejects an unknown character, two adjacent digits, or a row whose
widths do not sum to 8 (the crazyhouse marker `~` is not modelled). -/
def parseFenRow (row : String) : Option (List (Nat × Piece)) :=
  let step :
      Option (Nat × Bool × List (Nat × Piece)) → Char →
        Option (Nat × Bool × List (Nat × Piece)) :=
    fun st c =>
      match st with
      | none => none
      | some (fileSum, prevDigit, acc) =>
        if '1' ≤ c ∧ c ≤ '8' then
          if prevDigit then none
          else some (fileSum + (c.toNat - 48), true, acc)
        else
          match pieceOfChar c with
          | some p => some (fileSum + 1, false, acc ++ [(fileSum, p)])
          | none => none
  match row.toList.foldl step (some (0, false, [])) with
  | some (8, _, acc) => some acc
  | _ => none

/-- Parse the piece-placement field: exactly 8 rows separated by `/`,
the first row being rank 8. -/
def parseBoardPart (s : String) : Option (List (Nat × Piece)) :=
  let rows := ChessModel.strSplit s "/"
  if rows.length = 8 then
    (rows.mapM parseFenRow).map (fun parsed =>
      (parsed.enum.map (fun (i, pieces) =>
        pieces.map (fun (f, p) => ((7 - i) * 8 + f, p)))).flatten)
  else none

/-- Parse a square name `a1`..`h8` into `0`..`63`. -/
def squareOfName (s : String) : Option Nat :=
  match s.toList with
  | [f, r] =>
    if 'a' ≤ f ∧ f ≤ 'h' ∧ '1' ≤ r ∧ r ≤ '8' then
      some ((r.toNat - 49) * 8 + (f.toNat - 97))
    else none
  | _ => none

/-- The castling field of a FEN: `-` or letters in `KQkq`/file letters
(python-chess checks it against a regular expression; this check keeps
the same shape — a nonempty string of the allowed letters of bounded
length — which is all the handler's validation step needs). -/
def validCastlingPart (s : String) : Bool :=
  s == "-" ||
  (s ≠ "" && s.length ≤ 4 &&
   s.toList.all (fun c =>
     c == 'K' || c == 'Q' || c == 'k' || c == 'q' ||
     ('A' ≤ c && c ≤ 'H') || ('a' ≤ c && c ≤ 'h')))

/-- A nonempty digit string (python-chess converts the move counters
with `int`, raising `ValueError` otherwise). -/
def isNatString (s : String) : Bool :=
  s ≠ "" && s.toList.all Char.isDigit

def boardOfPlacement (placement : List (Nat × Piece)) (t : Color)
    (ep : Option Nat) (cr : List Nat) : Board :=
  { pieceAt := fun s => (placement.find? (fun q => q.1 == s)).map Prod.snd
    turn := t
    epSquare := ep
    castlingRights := cr }

/-- The castling-rights squares denoted by a FEN castling field
(python-chess `_set_castling_fen`): `K`/`Q`/`k`/`q` name the standard
h1/a1/h8/a8 rook squares, a file letter names that file's square on
the owner's back rank, `-` names none.  (For the Shredder-style
letters python-chess prefers an actual outermost rook when the
position has one; on the standard setups the claims exercise, the two
readings coincide.) -/
def parseCastlingRights (s : String) : List Nat :=
  if s = "-" then []
  else
    s.data.filterMap (fun c =>
      if c = 'K' then some 7
      else if c = 'Q' then some 0
      else if c = 'k' then some 63
      else if c = 'q' then some 56
      else if 'A' ≤ c ∧ c ≤ 'H' then some (c.toNat - 65)
      else if 'a' ≤ c ∧ c ≤ 'h' then some (56 + (c.toNat - 97))
      else none)

/-- Model of the `chess.Board(fen)` constructor (python-chess
`set_fen`), returning `none` where the constructor raises `ValueError`:
empty FEN, malformed piece placement (wrong number of rows, bad row
widths, unknown characters, adjacent digits), a turn field other than
`w`/`b`, a malformed castling field, an en-passant field that is
neither `-` nor a square name, non-numeric move counters, or trailing
fields.  Missing trailing fields default as in python-chess (White to
move, no en-passant square). -/
def fenToBoard (fen : String) : Option Board :=
  let parts := (strSplit fen " ").filter (fun p => p ≠ "")
  match parts with
  | [] => none
  | boardPart :: rest =>
    match parseBoardPart boardPart with
    | none => none
    | some placement =>
      match rest with
      | [] => some (boardOfPlacement placement .white none [])
      | turnPart :: rest2 =>
        match
          (if turnPart = "w" then some Color.white
           else if turnPart = "b" then some Color.black
           else none) with
        | none => none
        | some t =>
          match rest2 with
          | [] => some (boardOfPlacement placement t none [])
          | castlePart :: rest3 =>
            if !validCastlingPart castlePart then none
            else
              let cr := parseCastlingRights castlePart
              match rest3 with
              | [] => some (boardOfPlacement placement t none cr)
              | epPart :: rest4 =>
                match
                  (if epPart = "-" then some none
                   else (squareOfName epPart).map some) with
                | none => none
                | some ep =>
                  match rest4 with
                  | [] => some (boardOfPlacement placement t ep cr)
                  | halfPart :: rest5 =>
                    if !isNatString halfPart then none
                    else
                      match rest5 with
                      | [] => some (boardOfPlacement placement t ep cr)
                      | fullPart :: rest6 =>
                        if !isNatString fullPart then none
                        else if rest6 ≠ [] then none
                        else some (boardOfPlacement placement t ep cr)

end ChessModel

namespace App

open ChessModel

/-- Python exceptions that the embedded code can raise or handle.  The
handler distinguishes `FileNotFoundError` and `PermissionError`; every
other class falls to its generic `except Exception` clause. -/
inductive PyErr
  | fileNotFound (msg : String)
  | permissionError (msg : String)
  | valueError (msg : String)
  | typeError (msg : String)
  | attributeError (msg : String)
  | indexError (msg : String)
  | engineTerminated (msg : String)
deriving DecidableEq, Repr

def PyErr.msg : PyErr → String
  | .fileNotFound m => m
  | .permissionError m => m
  | .valueError m => m
  | .typeError m => m
  | .attributeError m => m
  | .indexError m => m
  | .engineTerminated m => m

def PyErr.isPermissionError : PyErr → Bool
  | .permissionError _ => true
  | _ => false

/-- `chess.engine.Score` (the relative score): centipawns `Cp(v)`,
`Mate(n)` (`n > 0`: the mover mates in `n`; `n ≤ 0`: the mover is
mated), or `MateGiven`. -/
inductive RelScore
  | cp (v : Int)
  | mate (n : Int)
  | mateGiven
deriving DecidableEq, Repr

/-- `Score.is_mate()`. -/
def RelScore.isMate : RelScore → Bool
  | .cp _ => false
  | _ => true

/-- `Score.score(mate_score=m)`. -/
def RelScore.scoreWithMate (s : RelScore) (mateScore : Int) : Int :=
  match s with
  | .cp v => v
  | .mate n => if n > 0 then mateScore - n else -mateScore - n
  | .mateGiven => mateScore

/-- `chess.engine.PovScore`: a relative score plus the point of view.
Its public interface consists of the attributes `relative` and `turn`
and the methods `white()`, `black()`, `pov()`, `is_mate()` and
`wdl()`. -/
structure PovScore where
  relative : RelScore
  povTurn : Color
deriving DecidableEq, Repr

/-- `PovScore.is_mate()` (delegates to the relative score). -/
def PovScore.isMate (s : PovScore) : Bool :=
  s.relative.isMate

/-- Model of the attribute lookup `score.mate()` on a
`chess.engine.PovScore` value, as written on line 83 of
`function_app.py`.  `PovScore` exposes `relative`, `turn`, `white()`,
`black()`, `pov()`, `is_mate()` and `wdl()` but — unlike the `Score`
stored in its `relative` attribute — it has no `mate()` method, so the
lookup raises `AttributeError` and no integer is ever produced. -/
def PovScore.mateLookup (_ : PovScore) : Except PyErr Int :=
  .error (.attributeError "PovScore object has no attribute mate")

/-- The dictionary returned by `engine.analyse` for the stubbed engine:
the keys the adapter reads.  A `none` field models an absent key. -/
structure EngineInfo where
  depth : Option Int := none
  seldepth : Option Int := none
  nodes : Option Int := none
  nps : Option Int := none
  pv : Option (List Move) := none
  score : Option PovScore := none
deriving DecidableEq, Repr

/-- Value of the `eval` field: `None`, a float, or the infinite
sentinels `float(inf)` / `float(-inf)` (floats whose value the code
produces by exact division are modelled as rationals). -/
inductive EvalVal
  | null
  | val (q : ℚ)
  | posInf
  | negInf
deriving DecidableEq, Repr

/-- The analysis dictionary built on lines 52-79 and mutated by the
following blocks.  `from`/`to` are Python keys, renamed `fromSquare` /
`toSquare` here.  The `centipawns` field holds a string in both score
branches (lines 85 and 90), hence `Option String`. -/
structure AnalysisResult where
  fen : String
  depth : Option Int
  seldepth : Option Int
  nodes : Option Int
  nps : Option Int
  timeMs : Int
  mate : Option Int
  evalVal : EvalVal
  centipawns : Option String
  text : String
  move : Option String
  san : Option String
  lan : Option String
  turn : String
  color : String
  piece : Option String
  flags : Option String
  isCapture : Option Bool
  isCastling : Option Bool
  isPromotion : Option Bool
  fromSquare : Option String
  toSquare : Option String
  fromNumeric : Option String
  toNumeric : Option String
  continuationArr : List String
  winChance : Option ℚ
deriving DecidableEq, Repr

def colorLetter : Color → String
  | .white => "w"
  | .black => "b"

/-- Lines 52-79: the freshly initialised dictionary. -/
def baseResult (fen : String) (info : EngineInfo) (elapsedMs : Int)
    (b : Board) : AnalysisResult :=
  { fen := fen
    depth := info.depth
    seldepth := info.seldepth
    nodes := info.nodes
    nps := info.nps
    timeMs := elapsedMs
    mate := none
    evalVal := .null
    centipawns := none
    text := ""
    move := none
    san := none
    lan := none
    turn := colorLetter b.turn
    color := colorLetter b.turn
    piece := none
    flags := none
    isCapture := none
    isCastling := none
    isPromotion := none
    fromSquare := none
    toSquare := none
    fromNumeric := none
    toNumeric := none
    continuationArr := (info.pv.getD []).map Move.uci
    winChance := none }

/-- Line 49, `info.get("pv", [None])[0]`: `None` when the key is
absent, the head otherwise; indexing an empty list raises
`IndexError`. -/
def bestMoveOfPv : Option (List Move) → Except PyErr (Option Move)
  | none => .ok none
  | some [] => .error (.indexError "list index out of range")
  | some (m :: _) => .ok (some m)

def optIntText : Option Int → String
  | some n => toString n
  | none => "None"

/-- Lines 91-97, the human-readable text for a centipawn score.  (The
two-decimal float formatting of the Python f-string is not reproduced
digit for digit; no claim concerns the `text` field.) -/
def cpText (cp : Int) (t : Color) (depth : Option Int) : String :=
  let playerTurn := match t with | .white => "White" | .black => "Black"
  let ws0 : String :=
    if cp > 50 then "winning" else if cp < -50 then "losing" else "equal"
  let ws1 := if cp < 0 ∧ t = .white then "losing" else ws0
  let ws2 := if cp > 0 ∧ t = .black then "losing" else ws1
  "Eval: " ++ toString cp ++ "cp. " ++ playerTurn ++ " is " ++ ws2 ++
    ". Depth " ++ optIntText depth ++ "."

/-- Lines 81-97: the score block.  `if score:` is false only for a
missing key (`PovScore` defines neither `__bool__` nor `__len__`, so
every instance is truthy).  In the mate branch the very first step,
the `score.mate()` lookup of line 83, raises (`PovScore.mateLookup`);
the rest of that branch is kept as the source writes it.  The
centipawn branch stores `str(cp)` in `centipawns` (line 90). -/
def applyScore (r : AnalysisResult) (info : EngineInfo) (b : Board) :
    Except PyErr AnalysisResult :=
  match info.score with
  | none => .ok r
  | some s =>
    if s.isMate then do
      let m ← s.mateLookup
      .ok { r with
        mate := some m
        evalVal := if m > 0 then .posInf else .negInf
        centipawns := some ("mate " ++ toString m)
        text := "Mate in " ++ toString m.natAbs ++ ". Depth " ++
          optIntText info.depth ++ "." }
    else
      let cp := s.relative.scoreWithMate 10000
      .ok { r with
        evalVal := .val ((cp : ℚ) / 100)
        centipawns := some (toString cp)
        text := cpText cp b.turn info.depth }

def evalValText : EvalVal → String
  | .null => "None"
  | .val q => toString q
  | .posInf => "inf"
  | .negInf => "-inf"

/-- `text.split(". ", 1)[-1]` of line 120: everything after the first
sentence separator, or the whole string when there is none. -/
def afterFirstSentence (t : String) : String :=
  match strSplit t ". " with
  | [] => t
  | [x] => x
  | _ :: rest => intercalateChars ". " rest

/-- Lines 100-120: the best-move block, filling the move metadata from
the board and rewriting `text`. -/
def applyBestMove (r : AnalysisResult) (b : Board) :
    Option Move → AnalysisResult
  | none => r
  | some mv =>
    let sanStr := boardSan b mv
    let r1 := { r with
      move := some mv.uci
      lan := some mv.uci
      san := some sanStr
      fromSquare := some (squareName mv.fromSq)
      toSquare := some (squareName mv.toSq)
      fromNumeric := some (toString mv.fromSq)
      toNumeric := some (toString mv.toSq)
      piece := (b.pieceAt mv.fromSq).map
        (fun (p : Piece) => String.mk [pieceTypeChar p.pt])
      isCapture := some (isCapture b mv)
      isCastling := some (isCastling b mv)
      isPromotion := some mv.promotion.isSome
      flags := some (get_move_flags b mv) }
    { r1 with
      text := "Best move " ++ sanStr ++ ": [" ++ evalValText r1.evalVal ++
        "]. " ++ afterFirstSentence r1.text }

/-- Model of the Python product `-k_factor * analysis_result["centipawns"]`
on line 129.  At that point the `centipawns` entry holds either `None`
(never set) or a `str` (both score branches stringify it, lines 85 and
90); multiplying a `float` by a `str` raises `TypeError`, as does
multiplying it by `None`.  The operation therefore never yields a
number, which the `Empty` success type records. -/
def floatTimesCentipawns : Option String → Except PyErr Empty
  | some _ =>
    .error (.typeError "cant multiply sequence by non-int of type float")
  | none =>
    .error (.typeError "unsupported operand type for mul: float and NoneType")

/-- Lines 123-130: the win-chance block.  The guard on line 125 is
`analysis_result["eval"] is not None and not score.is_mate()`; Python's
`and` short-circuits, so a `None` score is only dereferenced when the
`eval` entry was set (which the score block alone does).  When the
guard passes, the multiplication on line 129 raises before any
exponentiation happens. -/
def applyWinChance (r : AnalysisResult) (info : EngineInfo) :
    Except PyErr AnalysisResult :=
  if r.evalVal = .null then .ok r
  else
    match info.score with
    | none => .error (.attributeError "NoneType object has no attribute is_mate")
    | some s =>
      if s.isMate then .ok r
      else
        match floatTimesCentipawns r.centipawns with
        | .error e => .error e
        | .ok w => w.elim

/-- The body of the `try` block, lines 41-131: analyse, read the best
move and score, build the dictionary.  The `except` clauses on lines
133-138 re-raise unchanged, so the block's result is exactly this
value. -/
def analysisBody (fen : String) (b : Board) (info : EngineInfo)
    (elapsedMs : Int) : Except PyErr AnalysisResult := do
  let bestMove ← bestMoveOfPv info.pv
  let r0 := baseResult fen info elapsedMs b
  let r1 ← applyScore r0 info b
  let r2 := applyBestMove r1 b bestMove
  applyWinChance r2 info

/-- Line 12: `os.path.join(os.path.dirname(__file__), "bin",
"stockfish")`.  The directory prefix depends on the deployment; only
the fact that the error messages embed this very string matters. -/
def STOCKFISH_PATH : String := "bin/stockfish"

/-- The filesystem / process environment the adapter probes:
`os.path.exists`, `os.access(..., X_OK)` before and after the
`os.chmod` repair, whether `chmod` itself raises, and whether
`popen_uci` fails to start the engine. -/
structure Env where
  pathExists : Bool
  isExecutable : Bool
  execAfterChmod : Bool
  chmodRaises : Bool
  popenFails : Bool
deriving DecidableEq, Repr

/-- What the adapter did to its resources: was the engine subprocess
started (line 35), was `engine.quit()` reached (line 140), and how
often was `os.chmod` called (line 27). -/
structure AdapterLog where
  engineStarted : Bool
  quitCalled : Bool
  chmodCalls : Nat
deriving DecidableEq, Repr

/-- Lines 23-32: the execute-permission check.  When the binary is not
executable the code calls `chmod` once inside a `try`; a
`PermissionError` raised on line 30 (still not executable) is itself
caught by the `except Exception` clause on line 31 and re-wrapped, as
is any error from `chmod` itself.  Returns the outcome and the number
of `chmod` calls. -/
def checkExecutable (env : Env) : Except PyErr Unit × Nat :=
  if env.isExecutable then (.ok (), 0)
  else if env.chmodRaises then
    (.error (.permissionError ("Stockfish executable at " ++ STOCKFISH_PATH ++
      " is not executable. Error: chmod failed")), 1)
  else if !env.execAfterChmod then
    (.error (.permissionError ("Stockfish executable at " ++ STOCKFISH_PATH ++
      " is not executable. Error: Stockfish executable at " ++
      STOCKFISH_PATH ++ " is not executable after chmod.")), 1)
  else (.ok (), 1)

/-- Embedding of `get_stockfish_analysis` (lines 17-142).  The
`depth_limit` / `time_limit_sec` parameters only bound the engine
search; since the engine's reply is the explicit `info` parameter they
play no further role and are not threaded.  Control flow: existence
check (line 21, before any spawn), permission check (lines 23-32),
`popen_uci` (line 35), `chess.Board(fen_string)` (line 36) — note that
this constructor sits between the spawn and the `try`, so a
`ValueError` from an invalid FEN propagates with `quit` never called —
then the `try` body with its `finally: await engine.quit()` (lines
139-140), which runs on success and on every exception from the
body. -/
def get_stockfish_analysis (env : Env) (info : EngineInfo)
    (elapsedMs : Int) (fen : String) :
    Except PyErr AnalysisResult × AdapterLog :=
  if !env.pathExists then
    (.error (.fileNotFound ("Stockfish executable not found at " ++
      STOCKFISH_PATH)), ⟨false, false, 0⟩)
  else
    match checkExecutable env with
    | (.error e, n) => (.error e, ⟨false, false, n⟩)
    | (.ok _, n) =>
      if env.popenFails then
        (.error (.engineTerminated "engine process terminated"),
         ⟨false, false, n⟩)
      else
        match fenToBoard fen with
        | none =>
          (.error (.valueError ("invalid fen: " ++ fen)), ⟨true, false, n⟩)
        | some b =>
          (analysisBody fen b info elapsedMs, ⟨true, true, n⟩)

/-- The parsed JSON request body (line 180): the keys `main` reads.
The `depth` override is parsed but, as explained on
`get_stockfish_analysis`, plays no role in the modelled output. -/
structure ReqBody where
  fen : Option String := none
  depth : Option Int := none
deriving DecidableEq, Repr

/-- An inbound HTTP request: `jsonBody = none` models a body on which
`req.get_json()` raises `ValueError` (caught on line 181). -/
structure HttpRequest where
  jsonBody : Option ReqBody := none
  paramFen : Option String := none
  paramDepth : Option Int := none
  requestId : Option String := none
deriving DecidableEq, Repr

/-- A response body: a serialised error object `{"error": msg}`, a
serialised analysis dictionary with its `taskId`, or a plain-text
string (the missing-FEN reply on lines 236-238 passes a bare string to
`func.HttpResponse`). -/
inductive RespBody
  | errorJson (msg : String)
  | resultJson (r : AnalysisResult) (taskId : String)
  | plainText (s : String)
deriving DecidableEq, Repr

def RespBody.isErrorJson : RespBody → Bool
  | .errorJson _ => true
  | _ => false

structure HttpResponse where
  status : Nat
  body : RespBody
deriving DecidableEq, Repr

/-- What the handler caused to happen, for the never-invoked /
always-terminated claims. -/
structure MainLog where
  adapterInvoked : Bool
  engineStarted : Bool
  quitCalled : Bool
  chmodCalls : Nat
deriving DecidableEq, Repr

/-- Python truthiness of the `fen` variable (lines 187 and 193): both
`None` and the empty string are falsy. -/
def fenTruthy : Option String → Bool
  | none => false
  | some s => s ≠ ""

/-- Lines 175-190: the FEN selected by the handler — the body field
when present and truthy, else the query parameter. -/
def requestFen (req : HttpRequest) : Option String :=
  let bodyFen : Option String :=
    match req.jsonBody with
    | none => none
    | some body => body.fen
  if fenTruthy bodyFen then bodyFen else req.paramFen

def missingFenText : String :=
  "Please pass a FEN string in the request body or as a query parameter fen."

/-- Embedding of the handler `main` (lines 172-239).  With a truthy
FEN: validate it with `chess.Board` (400 on `ValueError`), call the
adapter, attach the `taskId` echo of the `X-Request-ID` header, and
reply 200; `FileNotFoundError` and `PermissionError` map to 500 with
the exception text, any other exception to 500 with the
`An internal error occurred:` wrapper.  Without a truthy FEN: a 400
whose body is a plain-text prompt (not a JSON object). -/
def main (env : Env) (info : EngineInfo) (elapsedMs : Int)
    (req : HttpRequest) : HttpResponse × MainLog :=
  let fen := requestFen req
  if fenTruthy fen then
    let fenStr := fen.getD ""
    match fenToBoard fenStr with
    | none =>
      (⟨400, .errorJson "Invalid FEN string provided."⟩,
       ⟨false, false, false, 0⟩)
    | some _ =>
      match get_stockfish_analysis env info elapsedMs fenStr with
      | (.ok r, log) =>
        (⟨200, .resultJson r (req.requestId.getD "defaultTaskId")⟩,
         ⟨true, log.engineStarted, log.quitCalled, log.chmodCalls⟩)
      | (.error (.fileNotFound m), log) =>
        (⟨500, .errorJson m⟩,
         ⟨true, log.engineStarted, log.quitCalled, log.chmodCalls⟩)
      | (.error (.permissionError m), log) =>
        (⟨500, .errorJson m⟩,
         ⟨true, log.engineStarted, log.quitCalled, log.chmodCalls⟩)
      | (.error e, log) =>
        (⟨500, .errorJson ("An internal error occurred: " ++ e.msg)⟩,
         ⟨true, log.engineStarted, log.quitCalled, log.chmodCalls⟩)
  else
    (⟨400, .plainText missingFenText⟩, ⟨false, false, false, 0⟩)

end App

namespace Fixtures

open ChessModel App

/-- The starting-position FEN of the specification. -/
def startFen : String :=
  "rnbqkbnr/pppppppp/8/8/8/8/PPPPPPPP/RNBQKBNR w KQkq - 0 1"

/-- The move `e2e4` (`e2 = 12`, `e4 = 28`). -/
def mvE2E4 : Move := ⟨12, 28, none⟩

/-- A healthy environment: binary present and executable, engine
starts. -/
def envOk : Env :=
  { pathExists := true, isExecutable := true, execAfterChmod := true
    chmodRaises := false, popenFails := false }

/-- Engine info with no key at all (in particular no `pv` and no
`score`). -/
def infoEmpty : EngineInfo := {}

/-- Engine info with a plain centipawn score of `20` for the mover and
no principal variation. -/
def infoCp20 : EngineInfo :=
  { score := some ⟨.cp 20, .white⟩ }

/-- Engine info with a mate-in-3-for-the-mover score and no principal
variation. -/
def infoMate3 : EngineInfo :=
  { score := some ⟨.mate 3, .white⟩ }

/-- Engine info whose principal variation is exactly `e2e4`, with no
score key — the "stubbed best move e2e4 engine response". -/
def infoPvE4 : EngineInfo :=
  { pv := some [mvE2E4] }

/-- A request carrying the start FEN in its JSON body. -/
def reqStart : HttpRequest :=
  { jsonBody := some { fen := some startFen } }

/-- A request carrying no FEN anywhere. -/
def reqNoFen : HttpRequest := {}

/-- A request whose FEN has only two ranks. -/
def reqBadFen : HttpRequest :=
  { jsonBody := some { fen := some "8/8" } }

/-- Capturing-promotion position: White `Ke1`, `Pe7`; Black `Rf8`,
`Kh8`; White to move. -/
def promoBoard : Board :=
  boardOfPlacement
    [(4, ⟨.king, .white⟩), (52, ⟨.pawn, .white⟩),
     (61, ⟨.rook, .black⟩), (63, ⟨.king, .black⟩)]
    .white none []

/-- The capturing promotion `e7xf8=Q`. -/
def promoMove : Move := ⟨52, 61, some .queen⟩

/-- The chess starting position, written out directly. -/
def startBoard : Board :=
  boardOfPlacement
    [(0, ⟨.rook, .white⟩), (1, ⟨.knight, .white⟩), (2, ⟨.bishop, .white⟩),
     (3, ⟨.queen, .white⟩), (4, ⟨.king, .white⟩), (5, ⟨.bishop, .white⟩),
     (6, ⟨.knight, .white⟩), (7, ⟨.rook, .white⟩),
     (8, ⟨.pawn, .white⟩), (9, ⟨.pawn, .white⟩), (10, ⟨.pawn, .white⟩),
     (11, ⟨.pawn, .white⟩), (12, ⟨.pawn, .white⟩), (13, ⟨.pawn, .white⟩),
     (14, ⟨.pawn, .white⟩), (15, ⟨.pawn, .white⟩),
     (48, ⟨.pawn, .black⟩), (49, ⟨.pawn, .black⟩), (50, ⟨.pawn, .black⟩),
     (51, ⟨.pawn, .black⟩), (52, ⟨.pawn, .black⟩), (53, ⟨.pawn, .black⟩),
     (54, ⟨.pawn, .black⟩), (55, ⟨.pawn, .black⟩),
     (56, ⟨.rook, .black⟩), (57, ⟨.knight, .black⟩), (58, ⟨.bishop, .black⟩),
     (59, ⟨.queen, .black⟩), (60, ⟨.king, .black⟩), (61, ⟨.bishop, .black⟩),
     (62, ⟨.knight, .black⟩), (63, ⟨.rook, .black⟩)]
    .white none [0, 7, 56, 63]

/-- Castling position: White `Ke1`, `Rh1` with the kingside right,
Black `Ke8`; White to move, kingside castling is legal. -/
def castleBoard : Board :=
  boardOfPlacement
    [(4, ⟨.king, .white⟩), (7, ⟨.rook, .white⟩), (60, ⟨.king, .black⟩)]
    .white none [7]

/-- The kingside castle `e1g1` (`O-O`). -/
def castleMove : Move := ⟨4, 6, none⟩

/-- A throwaway analysis record, used only as the default of
`resultOfResponse`. -/
def emptyResult : AnalysisResult :=
  baseResult "" {} 0 (boardOfPlacement [] .white none [])

/-- The analysis record carried by a success response (the default
record for any other response shape). -/
def resultOfResponse (resp : HttpResponse) : AnalysisResult :=
  match resp.body with
  | .resultJson r _ => r
  | _ => emptyResult

/-- The record the handler returns for the start position and the
stubbed `pv = [e2e4]`, no-score engine reply. -/
def c9Result : AnalysisResult :=
  resultOfResponse (App.main envOk infoPvE4 0 reqStart).1

end Fixtures

namespace ChessModel

/-- The move-flag computation as the specification words it, amended
only where the code forced it: the priority is a pawn double push
(`"b"`), then promotion, then kingside castle (`"k"`), then queenside
castle (`"q"`), then capture (en passant `"e"` distinct from ordinary
`"c"`), else normal (`"n"`) — a single-letter code except that a
capturing promotion yields the two-letter code `"pc"`. -/
def flagSpecAmended (b : Board) (m : Move) : String :=
  if pawnAt b m.fromSq = true ∧ rankDist m = 2 then "b"
  else if m.promotion.isSome then
    (if isCapture b m then "pc" else "p")
  else if isKingsideCastling b m then "k"
  else if isQueensideCastling b m then "q"
  else if isCapture b m then (if isEnPassant b m then "e" else "c")
  else "n"

/-- Consistency facts that hold of every legal chess move, used as the
hypothesis of the flag theorem: a pawn double push neither captures
nor promotes (it is a straight advance onto an empty square from the
pawn's home rank); a castling move captures nothing; a promotion is a
pawn move and is never an en-passant capture (en passant targets rank
3 or 6, promotion rank 1 or 8). -/
def MoveOk (b : Board) (m : Move) : Prop :=
  (pawnAt b m.fromSq = true ∧ rankDist m = 2 →
     m.promotion = none ∧ isCapture b m = false) ∧
  (isCastling b m = true → isCapture b m = false) ∧
  (m.promotion ≠ none → pawnAt b m.fromSq = true ∧ isEnPassant b m = false)

instance (b : Board) (m : Move) : Decidable (MoveOk b m) := by
  unfold MoveOk; infer_instance

theorem pawnAt_not_kingAt {b : Board} {s : Nat} (h : pawnAt b s = true) :
    kingAt b s = false := by
  unfold pawnAt at h
  unfold kingAt
  rcases hp : b.pieceAt s with _ | p
  · rfl
  · rw [hp] at h
    simp only [beq_iff_eq] at h ⊢
    simp [h]

theorem isCastling_kingAt {b : Board} {m : Move}
    (h : isCastling b m = true) : kingAt b m.fromSq = true := by
  unfold isCastling at h
  exact (Bool.and_eq_true_iff.mp h).1

theorem isKingsideCastling_isCastling {b : Board} {m : Move}
    (h : isKingsideCastling b m = true) : isCastling b m = true := by
  unfold isKingsideCastling at h
  exact (Bool.and_eq_true_iff.mp h).1

theorem isQueensideCastling_isCastling {b : Board} {m : Move}
    (h : isQueensideCastling b m = true) : isCastling b m = true := by
  unfold isQueensideCastling at h
  exact (Bool.and_eq_true_iff.mp h).1

theorem ne_other (c : Color) : c ≠ c.other := by
  cases c <;> simp [Color.other]

theorem pawnAt_of_pieceAt {b : Board} {s : Nat} {p : Piece}
    (hps : b.pieceAt s = some p) (hpt : p.pt = .pawn) :
    pawnAt b s = true := by
  unfold pawnAt
  rw [hps]
  dsimp only
  rw [hpt]
  rfl

theorem not_pawnAt_of_pieceAt {b : Board} {s : Nat} {p : Piece}
    (hps : b.pieceAt s = some p) (hpt : p.pt ≠ .pawn) :
    pawnAt b s = false := by
  unfold pawnAt
  rw [hps]
  dsimp only
  simp [hpt]

theorem isCastling_false_of_not_king {b : Board} {m : Move} {p : Piece}
    (hps : b.pieceAt m.fromSq = some p) (h : p.pt ≠ .king) :
    isCastling b m = false := by
  unfold isCastling kingAt
  rw [hps]
  dsimp only
  simp [h]

theorem isEnPassant_false_of_dist {b : Board} {m : Move}
    (h7 : ((m.toSq : Int) - (m.fromSq : Int)).natAbs ≠ 7)
    (h9 : ((m.toSq : Int) - (m.fromSq : Int)).natAbs ≠ 9) :
    isEnPassant b m = false := by
  unfold isEnPassant
  simp [h7, h9]

theorem isEnPassant_false_of_occupied {b : Board} {m : Move}
    (h : occupied b m.toSq = true) : isEnPassant b m = false := by
  unfold isEnPassant
  simp [h]

/-- A move onto an empty square at a non-en-passant distance, made by
a piece of the side to move, is no capture. -/
theorem isCapture_false_of_empty_far {b : Board} {m : Move}
    (hcolfrom : colorAt b m.fromSq = some b.turn)
    (hempty : occupied b m.toSq = false)
    (h7 : ((m.toSq : Int) - (m.fromSq : Int)).natAbs ≠ 7)
    (h9 : ((m.toSq : Int) - (m.fromSq : Int)).natAbs ≠ 9) :
    isCapture b m = false := by
  unfold isCapture
  rw [isEnPassant_false_of_dist h7 h9]
  rw [hcolfrom]
  have hcolto : colorAt b m.toSq = none := by
    unfold occupied at hempty
    unfold colorAt
    rcases hx : b.pieceAt m.toSq with _ | q
    · rfl
    · rw [hx] at hempty
      simp at hempty
  rw [hcolto]
  simp [ne_other b.turn]

theorem mem_withPromotions {c : Color} {s t : Nat} {m : Move}
    (h : m ∈ withPromotions c s t) : m.fromSq = s ∧ m.toSq = t := by
  unfold withPromotions at h
  split at h <;> simp at h
  · rcases h with h | h | h | h <;> subst h <;> exact ⟨rfl, rfl⟩
  · subst h
    exact ⟨rfl, rfl⟩

/-- A pawn only attacks squares one rank away. -/
theorem pawn_attack_rankDist {b : Board} {s t : Nat} {p : Piece}
    (hps : b.pieceAt s = some p) (hpt : p.pt = .pawn)
    (hatk : attacksSq b s t = true) : (rankI t - rankI s).natAbs = 1 := by
  unfold attacksSq at hatk
  rw [hps] at hatk
  dsimp only at hatk
  by_cases hst : (s == t) = true
  · rw [if_pos hst] at hatk
    exact absurd hatk (by simp)
  · rw [if_neg hst] at hatk
    rw [hpt] at hatk
    dsimp only at hatk
    obtain ⟨_, hdr⟩ := Bool.and_eq_true_iff.mp hatk
    rcases hcol : p.color with _ | _ <;> rw [hcol] at hdr <;>
      simp only [beq_iff_eq] at hdr <;> rw [hdr] <;> rfl

/-- Pseudo-legal moves of a non-pawn piece satisfy the `MoveOk`
consistency facts. -/
theorem moveOk_nonpawn_case (b : Board) (s : Nat) (p : Piece)
    (hps : b.pieceAt s = some p) (hpt : p.pt ≠ .pawn) (m : Move)
    (hm : m ∈ (List.range 64).filterMap (fun t =>
      if attacksSq b s t && !(colorAt b t == some b.turn) then
        some ⟨s, t, none⟩
      else none)) : MoveOk b m := by
  simp only [List.mem_filterMap, List.mem_range] at hm
  obtain ⟨t, ht, heq⟩ := hm
  by_cases hcond : (attacksSq b s t && !(colorAt b t == some b.turn)) = true
  · rw [if_pos hcond] at heq
    obtain ⟨hatk, hnotown⟩ := Bool.and_eq_true_iff.mp hcond
    injection heq with heq'
    subst heq'
    refine ⟨?_, ?_, ?_⟩
    · rintro ⟨hpawn, _⟩
      rw [not_pawnAt_of_pieceAt hps hpt] at hpawn
      exact absurd hpawn (by simp)
    · intro hcast
      unfold isCastling kingAt at hcast
      rw [hps] at hcast
      dsimp only at hcast
      by_cases hking : p.pt = .king
      · simp only [hking, beq_self_eq_true, Bool.true_and] at hcast
        rcases Bool.or_eq_true_iff.mp hcast with hfar | hrook
        · exfalso
          unfold attacksSq at hatk
          rw [hps] at hatk
          dsimp only at hatk
          simp only [hking] at hatk
          by_cases hst : (s == t) = true
          · rw [if_pos hst] at hatk
            exact absurd hatk (by simp)
          · rw [if_neg hst] at hatk
            obtain ⟨hdf, hdr⟩ := Bool.and_eq_true_iff.mp hatk
            simp only [decide_eq_true_eq] at hdf hfar
            omega
        · exfalso
          rcases hpt2 : b.pieceAt t with _ | q
          · rw [hpt2] at hrook
            exact absurd hrook (by simp)
          · rw [hpt2] at hrook
            obtain ⟨hq1, hq2⟩ := Bool.and_eq_true_iff.mp hrook
            have hcol2 : colorAt b t == some b.turn := by
              unfold colorAt
              rw [hpt2]
              simp only [beq_iff_eq] at hq2
              simp [hq2]
            rw [hcol2] at hnotown
            exact absurd hnotown (by simp)
      · simp [hking] at hcast
    · intro hne
      exact absurd rfl hne
  · rw [if_neg hcond] at heq
    exact absurd heq (by simp)

/-- Pseudo-legal moves of a pawn satisfy the `MoveOk` consistency
facts: pushes land on empty squares at distance 8 or 16, captures
travel one rank. -/
theorem moveOk_pawn_case (b : Board) (s : Nat) (p : Piece)
    (hps : b.pieceAt s = some p) (hpt : p.pt = .pawn)
    (hcol : p.color = b.turn) (m : Move)
    (hm : m ∈ pseudoLegalMovesFrom b s) : MoveOk b m := by
  have hpawnAt : pawnAt b s = true := pawnAt_of_pieceAt hps hpt
  have hnotking : p.pt ≠ .king := by
    rw [hpt]
    intro hcon
    exact PieceType.noConfusion hcon
  unfold pseudoLegalMovesFrom at hm
  rw [hps] at hm
  dsimp only at hm
  rw [if_neg (by simp [hcol])] at hm
  rw [hpt] at hm
  dsimp only at hm
  rcases List.mem_append.mp hm with hfwd | hcap
  · rcases hcolor : p.color with _ | _ <;> rw [hcolor] at hfwd <;>
      dsimp only at hfwd
    all_goals {
      split at hfwd
      case isFalse => simp at hfwd
      case isTrue hb1 =>
      split at hfwd
      case isFalse => simp at hfwd
      case isTrue hocc1 =>
      rcases List.mem_append.mp hfwd with hsingle | hdbl
      · obtain ⟨hfrom, hto⟩ := mem_withPromotions hsingle
        refine ⟨?_, ?_, ?_⟩
        · rintro ⟨-, hrd2⟩
          unfold rankDist rankI squareRank at hrd2
          rw [hfrom, hto] at hrd2
          omega
        · intro hcast
          rw [isCastling_false_of_not_king
            (show b.pieceAt m.fromSq = some p by rw [hfrom]; exact hps)
            hnotking] at hcast
          exact absurd hcast (by simp)
        · intro _
          refine ⟨by rw [hfrom]; exact hpawnAt,
            isEnPassant_false_of_dist ?_ ?_⟩
          · rw [hfrom, hto]; omega
          · rw [hfrom, hto]; omega
      · split at hdbl
        case isFalse => simp at hdbl
        case isTrue hsr =>
        split at hdbl
        case isFalse => simp at hdbl
        case isTrue hb2 =>
        split at hdbl
        case isFalse => simp at hdbl
        case isTrue hocc2 =>
        simp only [List.mem_singleton] at hdbl
        subst hdbl
        refine ⟨?_, ?_, ?_⟩
        · rintro ⟨-, -⟩
          refine ⟨rfl, isCapture_false_of_empty_far ?_ ?_ ?_ ?_⟩
          · show colorAt b s = some b.turn
            unfold colorAt
            rw [hps]
            simp [hcol]
          · simpa using hocc2
          · dsimp only
            omega
          · dsimp only
            omega
        · intro hcast
          rw [isCastling_false_of_not_king
            (show b.pieceAt _ = some p from hps) hnotking] at hcast
          exact absurd hcast (by simp)
        · intro hne
          exact absurd rfl hne
    }
  · rcases List.mem_flatMap.mp hcap with ⟨t, ht, hmem⟩
    have hatk : attacksSq b s t = true := (List.mem_filter.mp ht).2
    have hrd1 : (rankI t - rankI s).natAbs = 1 :=
      pawn_attack_rankDist hps hpt hatk
    by_cases henemy : (colorAt b t == some b.turn.other) = true
    · rw [if_pos henemy] at hmem
      obtain ⟨hfrom, hto⟩ := mem_withPromotions hmem
      have hocc : occupied b t = true := by
        unfold occupied
        rcases hx : b.pieceAt t with _ | q
        · exfalso
          unfold colorAt at henemy
          rw [hx] at henemy
          simp at henemy
        · simp
      refine ⟨?_, ?_, ?_⟩
      · rintro ⟨-, hrd2⟩
        unfold rankDist at hrd2
        rw [hfrom, hto] at hrd2
        omega
      · intro hcast
        rw [isCastling_false_of_not_king
          (show b.pieceAt m.fromSq = some p by rw [hfrom]; exact hps)
          hnotking] at hcast
        exact absurd hcast (by simp)
      · intro _
        refine ⟨by rw [hfrom]; exact hpawnAt,
          isEnPassant_false_of_occupied (by rw [hto]; exact hocc)⟩
    · rw [if_neg henemy] at hmem
      by_cases hep : (b.epSquare == some t) = true
      · rw [if_pos hep] at hmem
        simp only [List.mem_singleton] at hmem
        subst hmem
        refine ⟨?_, ?_, ?_⟩
        · rintro ⟨-, hrd2⟩
          unfold rankDist at hrd2
          dsimp only at hrd2
          omega
        · intro hcast
          rw [isCastling_false_of_not_king
            (show b.pieceAt _ = some p from hps) hnotking] at hcast
          exact absurd hcast (by simp)
        · intro hne
          exact absurd rfl hne
      · rw [if_neg hep] at hmem
        simp at hmem

/-- Every pseudo-legal move from a square satisfies `MoveOk`. -/
theorem moveOk_of_mem_from (b : Board) (s : Nat) (m : Move)
    (hm : m ∈ pseudoLegalMovesFrom b s) : MoveOk b m := by
  rcases hps : b.pieceAt s with _ | p
  · unfold pseudoLegalMovesFrom at hm
    rw [hps] at hm
    simp at hm
  · by_cases hcol : p.color = b.turn
    · by_cases hpt : p.pt = .pawn
      · exact moveOk_pawn_case b s p hps hpt hcol m hm
      · unfold pseudoLegalMovesFrom at hm
        rw [hps] at hm
        dsimp only at hm
        rw [if_neg (by simp [hcol])] at hm
        rcases hx : p.pt <;> rw [hx] at hm <;> dsimp only at hm
        · exact absurd hx hpt
        all_goals exact moveOk_nonpawn_case b s p hps hpt m hm
    · unfold pseudoLegalMovesFrom at hm
      rw [hps] at hm
      dsimp only at hm
      rw [if_pos (by simp [hcol])] at hm
      simp at hm

/-- Generated castling moves satisfy the `MoveOk` consistency facts:
the mover is a king (not a pawn), the king's two-file jump lands on a
required-empty square at a non-en-passant distance, and no promotion
is attached. -/
theorem moveOk_castling_case (b : Board) (m : Move)
    (hm : m ∈ castlingMoves b) : MoveOk b m := by
  unfold castlingMoves at hm
  dsimp only at hm
  split at hm
  case isFalse => simp at hm
  case isTrue hking =>
  rcases List.mem_append.mp hm with hside | hside
  all_goals
    unfold castleSideMove at hside
  all_goals
    split at hside
  case isFalse => simp at hside
  case isFalse => simp at hside
  all_goals {
    rename_i hcond
    obtain ⟨hr, hrook, hempt, hsafe⟩ := hcond
    simp only [List.mem_singleton] at hside
    subst hside
    simp only [List.all_cons, List.all_nil, Bool.and_true,
      Bool.and_eq_true, Bool.not_eq_true'] at hempt
    refine ⟨?_, ?_, ?_⟩
    · rintro ⟨hpawn, -⟩
      dsimp only at hpawn
      rw [not_pawnAt_of_pieceAt hking (by simp)] at hpawn
      exact absurd hpawn (by simp)
    · intro _
      refine isCapture_false_of_empty_far ?_ ?_ ?_ ?_
      · show colorAt b _ = some b.turn
        unfold colorAt
        rw [hking]
        rfl
      · first
        | exact hempt.2.1
        | exact hempt.2
      · dsimp only
        omega
      · dsimp only
        omega
    · intro hne
      exact absurd rfl hne
  }

/-- Every legal move of the model satisfies the `MoveOk` consistency
facts: legality implies pseudo-legality, and each generator arm is
checked in `moveOk_pawn_case` / `moveOk_nonpawn_case` /
`moveOk_castling_case`. -/
theorem moveOk_of_legal (b : Board) (m : Move)
    (h : isLegalMove b m = true) : MoveOk b m := by
  unfold isLegalMove at h
  obtain ⟨hc, _⟩ := Bool.and_eq_true_iff.mp h
  unfold pseudoLegalMoves at hc
  have hmem : (∃ s, s < 64 ∧ m ∈ pseudoLegalMovesFrom b s) ∨
      m ∈ castlingMoves b := by
    simpa using hc
  rcases hmem with ⟨s, -, hmm⟩ | hcm
  · exact moveOk_of_mem_from b s m hmm
  · exact moveOk_castling_case b m hcm

end ChessModel

/-!
## Claim C1

The specification claims that for a (non-mate) centipawn score `C` the
successful response carries `centipawns = C`, `eval = C / 100` and a
monotone `winChance`.  The code can never produce such a response: line
90 stores `str(cp)` in the `centipawns` entry, and line 129 then
multiplies the float `-k_factor` with that string, which raises
`TypeError`; the handler answers 500.  The claim (and lines 123-130's
own intent) is what the code was meant to do; the stored-as-string
slip defeats it, so this is a code bug, witnessed here by evaluating
the embedded code on the start position with a stubbed `Cp(20)`
score. -/
theorem claim_C1_centipawn_score_crashes :
    (App.get_stockfish_analysis Fixtures.envOk Fixtures.infoCp20 0
        Fixtures.startFen).1 =
      .error (.typeError "cant multiply sequence by non-int of type float") ∧
    (App.main Fixtures.envOk Fixtures.infoCp20 0 Fixtures.reqStart).1 =
      ⟨500, .errorJson
        "An internal error occurred: cant multiply sequence by non-int of type float"⟩ :=
  ⟨rfl, rfl⟩

/-!
## Claim C2

The specification claims that for a mate score `M` the successful
response has `mate = M` and an infinite `eval` sentinel of matching
sign.  Line 83 reads `score.mate()`, but `score` is the `PovScore`
returned by `engine.analyse`, which has no `mate()` method (its mate
distance lives in `score.relative.mate()`), so the lookup raises
`AttributeError` — the mate branch can never complete and the handler
answers 500.  Lines 84-86 and the spec sentence show the intended
behaviour, so this too is a code bug, witnessed by evaluating the
embedded code on the start position with a stubbed `Mate(+3)`
score. -/
theorem claim_C2_mate_score_crashes :
    (App.get_stockfish_analysis Fixtures.envOk Fixtures.infoMate3 0
        Fixtures.startFen).1 =
      .error (.attributeError "PovScore object has no attribute mate") ∧
    (App.main Fixtures.envOk Fixtures.infoMate3 0 Fixtures.reqStart).1 =
      ⟨500, .errorJson
        "An internal error occurred: PovScore object has no attribute mate"⟩ :=
  ⟨rfl, rfl⟩

/-!
## Claim C3 -/

/-- C3, counterexample: the claim says the computed flag code is a
single letter, but the legal capturing promotion `e7xf8=Q` (White
`Ke1`, `Pe7` against Black `Rf8`, `Kh8`) gets the two-letter code
`"pc"`. -/
theorem claim_C3_counterexample :
    ChessModel.isLegalMove Fixtures.promoBoard Fixtures.promoMove = true ∧
    ChessModel.get_move_flags Fixtures.promoBoard Fixtures.promoMove = "pc" ∧
    (ChessModel.get_move_flags Fixtures.promoBoard
        Fixtures.promoMove).length ≠ 1 := by
  refine ⟨by decide, by decide, by decide⟩

/-- Under the `MoveOk` consistency facts the flag computation equals
the spec-side priority function. -/
theorem flags_eq_flagSpec_of_moveOk (b : ChessModel.Board)
    (m : ChessModel.Move) (h : ChessModel.MoveOk b m) :
    ChessModel.get_move_flags b m = ChessModel.flagSpecAmended b m := by
  open ChessModel in
  obtain ⟨h1, h2, h3⟩ := h
  unfold ChessModel.get_move_flags ChessModel.flagSpecAmended
  by_cases hdp : pawnAt b m.fromSq = true ∧ rankDist m = 2
  · obtain ⟨hpromo, hcap⟩ := h1 hdp
    have hking : kingAt b m.fromSq = false := pawnAt_not_kingAt hdp.1
    have hcast : isCastling b m = false := by
      unfold ChessModel.isCastling; rw [hking]; rfl
    have hks : isKingsideCastling b m = false := by
      unfold ChessModel.isKingsideCastling; rw [hcast]; rfl
    have hqs : isQueensideCastling b m = false := by
      unfold ChessModel.isQueensideCastling; rw [hcast]; rfl
    simp [hdp, hpromo, hcap, hks, hqs]
    decide
  · simp only [if_neg hdp]
    rcases hp : m.promotion with _ | pr
    · by_cases hk : isKingsideCastling b m = true
      · have hcap := h2 (isKingsideCastling_isCastling hk)
        simp [hp, hk, hcap]
      · by_cases hq : isQueensideCastling b m = true
        · have hcap := h2 (isQueensideCastling_isCastling hq)
          simp [hp, hk, hq, hcap]
        · by_cases hc : isCapture b m = true
          · by_cases he : isEnPassant b m = true <;>
              simp [hp, hk, hq, hc, he, hdp]
          · simp [hp, hk, hq, hc, hdp]
    · obtain ⟨hpawn, hep⟩ := h3 (by simp [hp])
      have hdist : ¬ rankDist m = 2 := fun hd => hdp ⟨hpawn, hd⟩
      by_cases hc : isCapture b m = true
      · simp [hp, hc, hep, hpawn, hdist]
      · simp [hp, hc, hep, hpawn, hdist]

/-- C3 (amended): for every legal move on every board, the computed
flag code follows the priority promotion > kingside castle > queenside
castle, then capture (en passant `"e"` distinct from ordinary `"c"`),
else `"n"`, with the double-push indicator `"b"` overriding when a
pawn advances two ranks — a single letter except for the two-letter
`"pc"` of a capturing promotion (`flagSpecAmended` states exactly this
priority). -/
theorem claim_C3_flag_priority (b : ChessModel.Board) (m : ChessModel.Move)
    (h : ChessModel.isLegalMove b m = true) :
    ChessModel.get_move_flags b m = ChessModel.flagSpecAmended b m :=
  flags_eq_flagSpec_of_moveOk b m (ChessModel.moveOk_of_legal b m h)

/-- Witness for C3, at two concrete legal moves: the double push
`e2e4` from the start position (both sides compute to `"b"`), and —
showing the theorem's domain includes castling — the legal kingside
castle `e1g1` of `castleBoard` (both sides compute to `"k"`). -/
theorem claim_C3_flag_priority_witness :
    (ChessModel.isLegalMove Fixtures.startBoard Fixtures.mvE2E4 = true ∧
     ChessModel.get_move_flags Fixtures.startBoard Fixtures.mvE2E4 =
       ChessModel.flagSpecAmended Fixtures.startBoard Fixtures.mvE2E4) ∧
    (ChessModel.isLegalMove Fixtures.castleBoard Fixtures.castleMove = true ∧
     ChessModel.get_move_flags Fixtures.castleBoard Fixtures.castleMove =
       ChessModel.flagSpecAmended Fixtures.castleBoard Fixtures.castleMove) :=
  ⟨⟨by decide,
    claim_C3_flag_priority Fixtures.startBoard Fixtures.mvE2E4 (by decide)⟩,
   ⟨by decide,
    claim_C3_flag_priority Fixtures.castleBoard Fixtures.castleMove
      (by decide)⟩⟩

/-!
## Claim C4 -/

/-- C4, counterexample: the claim says the engine is terminated on
every return path of the analysis function once the subprocess has
started, whatever step raises.  But `chess.Board(fen_string)` on line
36 runs after `popen_uci` (line 35) and *before* the `try`/`finally`
of lines 41-140, so an invalid FEN handed directly to the adapter
propagates a `ValueError` with the engine started and `quit` never
called. -/
theorem claim_C4_counterexample :
    App.get_stockfish_analysis Fixtures.envOk Fixtures.infoEmpty 0
        "not a fen" =
      (.error (.valueError "invalid fen: not a fen"),
       ⟨true, false, 0⟩) :=
  rfl

/-- C4 (amended): whenever the FEN parses — which is the case for
every adapter call the handler makes, since it validates the FEN first
— `engine.quit()` is reached exactly when the subprocess was started,
whatever the engine reports and wherever the analysis body fails: the
`finally` clause makes cleanup unskippable from the `try` block. -/
theorem claim_C4_quit_iff_started (env : App.Env) (info : App.EngineInfo)
    (t : Int) (fen : String)
    (hfen : (ChessModel.fenToBoard fen).isSome = true) :
    (App.get_stockfish_analysis env info t fen).2.quitCalled =
      (App.get_stockfish_analysis env info t fen).2.engineStarted := by
  obtain ⟨b, hb⟩ := Option.isSome_iff_exists.mp hfen
  rcases env with ⟨pe, ie, ea, cr, pf⟩
  cases pe <;> cases ie <;> cases ea <;> cases cr <;> cases pf <;>
    simp [App.get_stockfish_analysis, App.checkExecutable, hb]

/-- Witness for C4: the start FEN parses, and on it (healthy
environment, empty engine info) the theorem applies. -/
theorem claim_C4_quit_iff_started_witness :
    (ChessModel.fenToBoard Fixtures.startFen).isSome = true ∧
    (App.get_stockfish_analysis Fixtures.envOk Fixtures.infoEmpty 0
        Fixtures.startFen).2.quitCalled =
      (App.get_stockfish_analysis Fixtures.envOk Fixtures.infoEmpty 0
        Fixtures.startFen).2.engineStarted :=
  ⟨by decide,
   claim_C4_quit_iff_started Fixtures.envOk Fixtures.infoEmpty 0
     Fixtures.startFen (by decide)⟩

/-!
## Claim C5 -/

/-- C5: whenever the handler's selected FEN fails `chess.Board`
validation, the response is a 400 carrying the JSON error object, and
the adapter is never invoked — no binary probe, no subprocess, no
`chmod` (the whole call log stays at its never-happened values). -/
theorem claim_C5_invalid_fen_rejected (env : App.Env)
    (info : App.EngineInfo) (t : Int) (req : App.HttpRequest)
    (fenS : String)
    (hreq : App.requestFen req = some fenS) (hne : fenS ≠ "")
    (hbad : ChessModel.fenToBoard fenS = none) :
    App.main env info t req =
      (⟨400, .errorJson "Invalid FEN string provided."⟩,
       ⟨false, false, false, 0⟩) := by
  unfold App.main
  rw [hreq]
  simp [App.fenTruthy, hne, hbad]

/-- Witness for C5: the two-rank FEN `8/8` is selected by the request,
fails validation, and the theorem applies. -/
theorem claim_C5_invalid_fen_rejected_witness :
    App.requestFen Fixtures.reqBadFen = some "8/8" ∧
    ChessModel.fenToBoard "8/8" = none ∧
    App.main Fixtures.envOk Fixtures.infoEmpty 0 Fixtures.reqBadFen =
      (⟨400, .errorJson "Invalid FEN string provided."⟩,
       ⟨false, false, false, 0⟩) :=
  ⟨rfl, rfl,
   claim_C5_invalid_fen_rejected Fixtures.envOk Fixtures.infoEmpty 0
     Fixtures.reqBadFen "8/8" rfl (by decide) rfl⟩

/-!
## Claim C6 -/

/-- C6: with a valid FEN but a missing engine binary, the adapter
raises `FileNotFoundError` on line 21-22 before any spawn (the engine
is never started, no chmod happens) and the handler answers 500 with a
JSON error whose message names the missing path. -/
theorem claim_C6_missing_binary (env : App.Env) (info : App.EngineInfo)
    (t : Int) (req : App.HttpRequest) (fenS : String)
    (hreq : App.requestFen req = some fenS) (hne : fenS ≠ "")
    (hval : (ChessModel.fenToBoard fenS).isSome = true)
    (hpath : env.pathExists = false) :
    App.main env info t req =
      (⟨500, .errorJson ("Stockfish executable not found at " ++
          App.STOCKFISH_PATH)⟩,
       ⟨true, false, false, 0⟩) := by
  obtain ⟨b, hb⟩ := Option.isSome_iff_exists.mp hval
  unfold App.main App.get_stockfish_analysis
  rw [hreq]
  simp [App.fenTruthy, hne, hb, hpath]

/-- Witness for C6: the start FEN with an environment whose binary
path does not exist. -/
theorem claim_C6_missing_binary_witness :
    (ChessModel.fenToBoard Fixtures.startFen).isSome = true ∧
    App.main ⟨false, true, true, false, false⟩ Fixtures.infoEmpty 0
        Fixtures.reqStart =
      (⟨500, .errorJson ("Stockfish executable not found at " ++
          App.STOCKFISH_PATH)⟩,
       ⟨true, false, false, 0⟩) :=
  ⟨by decide,
   claim_C6_missing_binary ⟨false, true, true, false, false⟩
     Fixtures.infoEmpty 0 Fixtures.reqStart Fixtures.startFen rfl
     (by decide) (by decide) rfl⟩

/-!
## Claim C7 -/

/-- C7, counterexample: on a request carrying no FEN at all, the
handler does answer 400, but lines 236-238 pass a bare prompt string
to `func.HttpResponse` — the body is plain text, not a JSON object of
the form `{"error": message}` as the claim states. -/
theorem claim_C7_counterexample :
    (App.main Fixtures.envOk Fixtures.infoEmpty 0 Fixtures.reqNoFen).1.status
        = 400 ∧
    (App.main Fixtures.envOk Fixtures.infoEmpty 0
        Fixtures.reqNoFen).1.body.isErrorJson = false ∧
    (App.main Fixtures.envOk Fixtures.infoEmpty 0 Fixtures.reqNoFen).1.body
        = .plainText App.missingFenText :=
  ⟨rfl, rfl, rfl⟩

/-- C7 (amended): with no truthy FEN in either the JSON body or the
query parameters, the handler returns HTTP 400 whose body is the
plain-text prompt asking for a FEN (not a JSON `error` object), and
nothing else happens. -/
theorem claim_C7_missing_fen_plaintext (env : App.Env)
    (info : App.EngineInfo) (t : Int) (req : App.HttpRequest)
    (h : App.fenTruthy (App.requestFen req) = false) :
    App.main env info t req =
      (⟨400, .plainText App.missingFenText⟩, ⟨false, false, false, 0⟩) := by
  unfold App.main
  simp [h]

/-- Witness for C7: the empty request selects no FEN, and the theorem
applies. -/
theorem claim_C7_missing_fen_plaintext_witness :
    App.fenTruthy (App.requestFen Fixtures.reqNoFen) = false ∧
    App.main Fixtures.envOk Fixtures.infoEmpty 0 Fixtures.reqNoFen =
      (⟨400, .plainText App.missingFenText⟩, ⟨false, false, false, 0⟩) :=
  ⟨rfl,
   claim_C7_missing_fen_plaintext Fixtures.envOk Fixtures.infoEmpty 0
     Fixtures.reqNoFen rfl⟩

/-!
## Claim C8 -/

/-- C8: valid FEN, binary present but not executable: the adapter
calls `chmod` exactly once; when the binary is still not executable
after that single attempt (or `chmod` itself raised), the adapter
fails with a `PermissionError`, the engine is never started, and the
handler answers 500 with a JSON error body. -/
theorem claim_C8_chmod_once_then_500 (env : App.Env)
    (info : App.EngineInfo) (t : Int) (req : App.HttpRequest)
    (fenS : String)
    (hreq : App.requestFen req = some fenS) (hne : fenS ≠ "")
    (hval : (ChessModel.fenToBoard fenS).isSome = true)
    (hpath : env.pathExists = true)
    (hexec : env.isExecutable = false)
    (hfail : env.chmodRaises = true ∨ env.execAfterChmod = false) :
    (App.main env info t req).2.chmodCalls = 1 ∧
    (App.main env info t req).2.engineStarted = false ∧
    (App.main env info t req).1.status = 500 ∧
    (App.main env info t req).1.body.isErrorJson = true ∧
    (∃ msg, (App.get_stockfish_analysis env info t fenS).1 =
      .error (.permissionError msg)) := by
  obtain ⟨b, hb⟩ := Option.isSome_iff_exists.mp hval
  unfold App.main App.get_stockfish_analysis App.checkExecutable
  rw [hreq]
  by_cases hcr : env.chmodRaises = true
  · simp [App.fenTruthy, hne, hb, hpath, hexec, hcr,
      App.RespBody.isErrorJson]
  · have hcr' : env.chmodRaises = false := by
      cases h : env.chmodRaises
      · rfl
      · exact absurd h hcr
    have hea : env.execAfterChmod = false := by
      rcases hfail with h1 | h1
      · exact absurd h1 hcr
      · exact h1
    simp [App.fenTruthy, hne, hb, hpath, hexec, hcr', hea,
      App.RespBody.isErrorJson]

/-- Witness for C8: the start FEN with a binary that exists, is not
executable, and stays non-executable after the repair attempt. -/
theorem claim_C8_chmod_once_then_500_witness :
    (ChessModel.fenToBoard Fixtures.startFen).isSome = true ∧
    ((App.main ⟨true, false, false, false, false⟩ Fixtures.infoEmpty 0
        Fixtures.reqStart).2.chmodCalls = 1 ∧
     (App.main ⟨true, false, false, false, false⟩ Fixtures.infoEmpty 0
        Fixtures.reqStart).2.engineStarted = false ∧
     (App.main ⟨true, false, false, false, false⟩ Fixtures.infoEmpty 0
        Fixtures.reqStart).1.status = 500 ∧
     (App.main ⟨true, false, false, false, false⟩ Fixtures.infoEmpty 0
        Fixtures.reqStart).1.body.isErrorJson = true ∧
     (∃ msg, (App.get_stockfish_analysis ⟨true, false, false, false, false⟩
        Fixtures.infoEmpty 0 Fixtures.startFen).1 =
          .error (.permissionError msg))) :=
  ⟨by decide,
   claim_C8_chmod_once_then_500 ⟨true, false, false, false, false⟩
     Fixtures.infoEmpty 0 Fixtures.reqStart Fixtures.startFen rfl
     (by decide) (by decide) rfl rfl (Or.inr rfl)⟩

/-!
## Shared lemmas about the success path of the analysis body -/

/-- The best-move block (lines 100-120) never touches the `eval`
entry. -/
theorem applyBestMove_evalVal (r : App.AnalysisResult)
    (b : ChessModel.Board) (om : Option ChessModel.Move) :
    (App.applyBestMove r b om).evalVal = r.evalVal := by
  cases om <;> rfl

/-- Once the `eval` entry is set and the score is a non-mate score,
the win-chance block of lines 123-130 cannot succeed: line 129
multiplies a float with the `centipawns` entry, raising `TypeError`
whatever that entry holds. -/
theorem applyWinChance_not_ok (r2 : App.AnalysisResult)
    (info : App.EngineInfo) (s : App.PovScore) (r : App.AnalysisResult)
    (hs : info.score = some s) (hm : s.isMate = false)
    (hv : r2.evalVal ≠ .null) :
    App.applyWinChance r2 info ≠ .ok r := by
  unfold App.applyWinChance
  rw [if_neg hv, hs]
  simp [hm, App.floatTimesCentipawns]
  rcases r2.centipawns with _ | v <;> simp

/-- The analysis body can only return normally when the engine info
carried no score at all: a mate score dies on the `score.mate()`
attribute lookup of line 83, a centipawn score dies on the
float-times-string multiplication of line 129. -/
theorem analysisBody_ok_score_none (fen : String) (b : ChessModel.Board)
    (info : App.EngineInfo) (t : Int) (r : App.AnalysisResult)
    (h : App.analysisBody fen b info t = .ok r) : info.score = none := by
  rcases hs : info.score with _ | s
  · rfl
  · exfalso
    unfold App.analysisBody at h
    rcases hpv : App.bestMoveOfPv info.pv with e | bm
    · rw [hpv] at h; simp [Bind.bind, Except.bind] at h
    · rw [hpv] at h
      simp only [Bind.bind, Except.bind] at h
      rw [App.applyScore, hs] at h
      by_cases hm : s.isMate = true
      · simp only [hm, if_true, App.PovScore.mateLookup,
          Bind.bind, Except.bind] at h
        exact Except.noConfusion h
      · have hm' : s.isMate = false := by
          cases hiso : s.isMate
          · rfl
          · exact absurd hiso hm
        simp only [hm', Bool.false_eq_true, if_false] at h
        exact applyWinChance_not_ok _ info s r hs hm'
          (by rw [applyBestMove_evalVal]; simp) h

/-- With no score and no principal variation the body returns the
freshly initialised dictionary unchanged. -/
theorem analysisBody_pv_none (fen : String) (b : ChessModel.Board)
    (info : App.EngineInfo) (t : Int)
    (hscore : info.score = none) (hpv : info.pv = none) :
    App.analysisBody fen b info t = .ok (App.baseResult fen info t b) := by
  simp [App.analysisBody, App.bestMoveOfPv, hpv, App.applyScore, hscore,
    App.applyWinChance, App.applyBestMove, App.baseResult,
    Bind.bind, Except.bind]

/-- With no score and a nonempty principal variation the body returns
the dictionary with the best-move block applied to the head move. -/
theorem analysisBody_pv_cons (fen : String) (b : ChessModel.Board)
    (info : App.EngineInfo) (t : Int) (m : ChessModel.Move)
    (rest : List ChessModel.Move)
    (hscore : info.score = none) (hpv : info.pv = some (m :: rest)) :
    App.analysisBody fen b info t =
      .ok (App.applyBestMove (App.baseResult fen info t b) b (some m)) := by
  simp only [App.analysisBody, App.bestMoveOfPv, hpv, App.applyScore,
    hscore, Bind.bind, Except.bind]
  simp only [App.applyWinChance, applyBestMove_evalVal]
  simp [App.baseResult]

/-- A successful adapter run means the FEN parsed and the body
succeeded on the parsed board. -/
theorem adapter_ok_body (env : App.Env) (info : App.EngineInfo) (t : Int)
    (fen : String) (r : App.AnalysisResult)
    (h : (App.get_stockfish_analysis env info t fen).1 = .ok r) :
    ∃ b, ChessModel.fenToBoard fen = some b ∧
      App.analysisBody fen b info t = .ok r := by
  unfold App.get_stockfish_analysis at h
  by_cases hp : env.pathExists = true
  · rcases hchk : App.checkExecutable env with ⟨cres, n⟩
    rw [hchk] at h
    simp only [hp, Bool.not_true, Bool.false_eq_true, if_false] at h
    rcases cres with e | u
    · simp at h
    · by_cases hpop : env.popenFails = true
      · simp [hpop] at h
      · have hpop' : env.popenFails = false := by
          cases hx : env.popenFails
          · rfl
          · exact absurd hx hpop
        simp only [hpop', Bool.false_eq_true, if_false] at h
        rcases hfb : ChessModel.fenToBoard fen with _ | b
        · rw [hfb] at h; simp at h
        · rw [hfb] at h
          exact ⟨b, rfl, h⟩
  · have hp' : env.pathExists = false := by
      cases hx : env.pathExists
      · rfl
      · exact absurd hx hp
    simp [hp'] at h

/-- A 200 response to the start-position request carries exactly the
adapter's analysis record. -/
theorem main_start_ok (env : App.Env) (info : App.EngineInfo) (t : Int)
    (r : App.AnalysisResult) (tid : String)
    (h : (App.main env info t Fixtures.reqStart).1 =
      ⟨200, .resultJson r tid⟩) :
    (App.get_stockfish_analysis env info t Fixtures.startFen).1 =
      .ok r := by
  unfold App.main at h
  have h1 : App.requestFen Fixtures.reqStart = some Fixtures.startFen := rfl
  rw [h1] at h
  simp only [App.fenTruthy] at h
  rw [if_pos (by decide)] at h
  simp only [Option.getD_some] at h
  rcases hfb : ChessModel.fenToBoard Fixtures.startFen with _ | b
  · rw [hfb] at h; simp at h
  · rw [hfb] at h
    rcases hres : App.get_stockfish_analysis env info t Fixtures.startFen
      with ⟨res, log⟩
    rw [hres] at h
    rcases res with e | v
    · rcases e <;> simp at h
    · simp at h
      simp [h.1]

/-!
## Claim C9 -/

/-- C9: for the start-position request and any engine reply whose
principal variation begins with `e2e4`, every successful response has
`san = "e4"`, `from = "e2"`, `to = "e4"` and the flag string `"b"` —
which contains (indeed is) the double-push indicator. -/
theorem claim_C9_start_e2e4_fields (env : App.Env) (info : App.EngineInfo)
    (t : Int) (rest : List ChessModel.Move) (r : App.AnalysisResult)
    (tid : String)
    (hpv : info.pv = some (Fixtures.mvE2E4 :: rest))
    (hmain : (App.main env info t Fixtures.reqStart).1 =
      ⟨200, .resultJson r tid⟩) :
    r.san = some "e4" ∧ r.fromSquare = some "e2" ∧
    r.toSquare = some "e4" ∧ r.flags = some "b" := by
  have hok := main_start_ok env info t r tid hmain
  obtain ⟨b, hb, hbody⟩ :=
    adapter_ok_body env info t Fixtures.startFen r hok
  have hscore := analysisBody_ok_score_none _ _ _ _ _ hbody
  rw [analysisBody_pv_cons Fixtures.startFen b info t Fixtures.mvE2E4 rest
    hscore hpv] at hbody
  have hr : r = App.applyBestMove (App.baseResult Fixtures.startFen info t b)
      b (some Fixtures.mvE2E4) := by
    injection hbody with h'
    exact h'.symm
  subst hr
  have hsan : ChessModel.boardSan b Fixtures.mvE2E4 = "e4" := by
    have hd : (ChessModel.fenToBoard Fixtures.startFen).map
        (fun bb => ChessModel.boardSan bb Fixtures.mvE2E4) = some "e4" := by
      decide
    rw [hb] at hd
    simpa using hd
  have hfl : ChessModel.get_move_flags b Fixtures.mvE2E4 = "b" := by
    have hd : (ChessModel.fenToBoard Fixtures.startFen).map
        (fun bb => ChessModel.get_move_flags bb Fixtures.mvE2E4) =
          some "b" := by decide
    rw [hb] at hd
    simpa using hd
  refine ⟨?_, ?_, ?_, ?_⟩ <;>
    simp [App.applyBestMove, hsan, hfl] <;> decide

/-- Witness for C9: the stubbed `pv = [e2e4]`, no-score engine reply
really produces a 200 response (computed as `c9Result`), and the
theorem applies to it. -/
theorem claim_C9_start_e2e4_fields_witness :
    Fixtures.infoPvE4.pv = some (Fixtures.mvE2E4 :: []) ∧
    (App.main Fixtures.envOk Fixtures.infoPvE4 0 Fixtures.reqStart).1 =
      ⟨200, .resultJson Fixtures.c9Result "defaultTaskId"⟩ ∧
    (Fixtures.c9Result.san = some "e4" ∧
     Fixtures.c9Result.fromSquare = some "e2" ∧
     Fixtures.c9Result.toSquare = some "e4" ∧
     Fixtures.c9Result.flags = some "b") :=
  ⟨rfl, by decide,
   claim_C9_start_e2e4_fields Fixtures.envOk Fixtures.infoPvE4 0 []
     Fixtures.c9Result "defaultTaskId" rfl (by decide)⟩

/-!
## Claim C10 -/

/-- C10, counterexample: the claim promises a 200 response whenever
the engine info lacks a `pv` key, but with a (perfectly ordinary)
centipawn score alongside the missing `pv` the win-chance block still
raises `TypeError` and the handler answers 500, not 200. -/
theorem claim_C10_counterexample :
    Fixtures.infoCp20.pv = none ∧
    (App.main Fixtures.envOk Fixtures.infoCp20 0
        Fixtures.reqStart).1.status = 500 :=
  ⟨rfl, rfl⟩

/-- C10 (amended): when the engine info lacks both the `pv` key and
the `score` key (the latter restriction forced by the win-chance and
mate-branch crashes), the handler still returns HTTP 200, with all
twelve move-metadata fields `None` and an empty continuation. -/
theorem claim_C10_no_pv_nulls (env : App.Env) (info : App.EngineInfo)
    (t : Int) (req : App.HttpRequest) (fenS : String)
    (hreq : App.requestFen req = some fenS) (hne : fenS ≠ "")
    (hval : (ChessModel.fenToBoard fenS).isSome = true)
    (hpath : env.pathExists = true)
    (hchk : (App.checkExecutable env).1 = .ok ())
    (hpop : env.popenFails = false)
    (hpv : info.pv = none) (hscore : info.score = none) :
    ∃ r tid, (App.main env info t req).1 = ⟨200, .resultJson r tid⟩ ∧
      r.move = none ∧ r.san = none ∧ r.lan = none ∧ r.piece = none ∧
      r.flags = none ∧ r.isCapture = none ∧ r.isCastling = none ∧
      r.isPromotion = none ∧ r.fromSquare = none ∧ r.toSquare = none ∧
      r.fromNumeric = none ∧ r.toNumeric = none ∧
      r.continuationArr = [] := by
  obtain ⟨b, hb⟩ := Option.isSome_iff_exists.mp hval
  refine ⟨App.baseResult fenS info t b, req.requestId.getD "defaultTaskId",
    ?_, ?_, ?_, ?_, ?_, ?_, ?_, ?_, ?_, ?_, ?_, ?_, ?_, ?_⟩
  · unfold App.main App.get_stockfish_analysis
    rw [hreq]
    rcases hc : App.checkExecutable env with ⟨cres, n⟩
    rw [hc] at hchk
    simp only at hchk
    rcases cres with e | u
    · exact absurd hchk (by simp)
    · simp [App.fenTruthy, hne, hb, hpath, hpop,
        analysisBody_pv_none fenS b info t hscore hpv]
  all_goals simp [App.baseResult, hpv]

/-- Witness for C10: the empty engine info on the start-position
request satisfies every hypothesis, and the theorem applies. -/
theorem claim_C10_no_pv_nulls_witness :
    Fixtures.infoEmpty.pv = none ∧ Fixtures.infoEmpty.score = none ∧
    (∃ r tid,
      (App.main Fixtures.envOk Fixtures.infoEmpty 0 Fixtures.reqStart).1 =
        ⟨200, .resultJson r tid⟩ ∧
      r.move = none ∧ r.san = none ∧ r.lan = none ∧ r.piece = none ∧
      r.flags = none ∧ r.isCapture = none ∧ r.isCastling = none ∧
      r.isPromotion = none ∧ r.fromSquare = none ∧ r.toSquare = none ∧
      r.fromNumeric = none ∧ r.toNumeric = none ∧
      r.continuationArr = []) :=
  ⟨rfl, rfl,
   claim_C10_no_pv_nulls Fixtures.envOk Fixtures.infoEmpty 0
     Fixtures.reqStart Fixtures.startFen rfl (by decide) (by decide)
     rfl rfl rfl rfl rfl⟩
